import Mathlib

set_option maxHeartbeats 1000000
set_option maxRecDepth 8000

/-!
Verification of the escalation trend pipeline (`app_script.js`).

The script's core is shallowly embedded here: spreadsheet cell values
become the inductive `JSVal`, JavaScript numbers are modelled as exact
rationals (`ℚ`), dates become millisecond timestamps (`Int`), and the
host's local time zone is an explicit offset parameter `tz`
(milliseconds west of UTC are subtracted when building a timestamp from
local calendar components).  Fallible parsing returns `Option`.
-/

/-- A JavaScript/spreadsheet cell value.  `vDate` carries a valid `Date`'s
millisecond timestamp; `vInvalidDate` is a `Date` object with `NaN` time
value.  `vNaN` is the numeric NaN. -/
inductive JSVal where
  | vStr (s : String)
  | vNum (q : ℚ)
  | vNaN
  | vBool (b : Bool)
  | vNull
  | vUndefined
  | vDate (ms : Int)
  | vInvalidDate
deriving DecidableEq, Repr

/-- JavaScript truthiness of a value. -/
def truthy : JSVal → Bool
  | .vStr s => s ≠ ""
  | .vNum q => q ≠ 0
  | .vNaN => false
  | .vBool b => b
  | .vNull => false
  | .vUndefined => false
  | .vDate _ => true
  | .vInvalidDate => true

/-- JavaScript `a || b` (returns `a` when truthy, else `b`). -/
def jsOr (v d : JSVal) : JSVal := if truthy v then v else d

/-- JavaScript `String(v)` coercion.  Numbers with denominator 1 print as
decimal integers exactly as in JS; the rendering of non-integral numbers
and of `Date` objects is host/locale dependent and no claim checked here
depends on it, so a simple representative rendering is used. -/
def jsToString : JSVal → String
  | .vStr s => s
  | .vNum q => if q.den = 1 then toString q.num else toString q
  | .vNaN => "NaN"
  | .vBool b => if b then "true" else "false"
  | .vNull => "null"
  | .vUndefined => "undefined"
  | .vDate ms => toString ms
  | .vInvalidDate => "Invalid Date"

/-- JavaScript string `trim`: strip leading and trailing whitespace. -/
def jsTrim (s : String) : String :=
  String.mk (((s.toList.dropWhile Char.isWhitespace).reverse.dropWhile Char.isWhitespace).reverse)

/-- JavaScript `Math.round`: nearest integer, ties toward positive infinity. -/
def jsRound (q : ℚ) : Int := ⌊q + 1/2⌋

/-- JavaScript `Number.prototype.toFixed(1)` followed by `Number(...)`:
round to one decimal place, ties toward the larger value. -/
def toFixed1 (q : ℚ) : ℚ := (jsRound (q * 10) : ℚ) / 10

/- =====================  Confidence parser  ===================== -/

/-- Value of a list of decimal digit characters. -/
def digitsToNat (ds : List Char) : Nat := ds.foldl (fun a c => a * 10 + (c.toNat - 48)) 0

/-- JavaScript `parseFloat` restricted to strings containing only decimal
digits and dots (which is all `safeParseConfidence` ever feeds it): the
longest prefix of the form `digits`, `digits.digits`, `.digits` or
`digits.` is parsed; if that prefix contains no digit the result is NaN
(`none`). -/
def parseFloatDD (s : String) : Option ℚ :=
  let cs := s.toList
  let ip := cs.takeWhile Char.isDigit
  let rest := cs.dropWhile Char.isDigit
  match rest with
  | '.' :: rest2 =>
    let fp := rest2.takeWhile Char.isDigit
    if ip.isEmpty && fp.isEmpty then none
    else some ((digitsToNat ip : ℚ) + (digitsToNat fp : ℚ) / ((10 : ℚ) ^ fp.length))
  | _ => if ip.isEmpty then none else some ((digitsToNat ip : ℚ))

/-- The `num <= 1 ? num * 100 : num` scaling step of `safeParseConfidence`. -/
def jsScale (q : ℚ) : ℚ := if q ≤ 1 then q * 100 else q

/-- The `String(raw).trim().replace(/[^0-9.]/g, "")` cleaning step. -/
def cleanConfString (s : String) : String :=
  String.mk ((jsTrim s).toList.filter (fun c => c.isDigit || c == '.'))

/-- Embedding of `safeParseConfidence` (app_script.js lines 325-340). -/
def safeParseConfidence (raw : JSVal) : Option ℚ :=
  if raw = .vNull ∨ raw = .vUndefined ∨ raw = .vStr "" then none
  else match raw with
  | .vNum q => some (jsScale q)
  | .vNaN => none
  | r =>
    let cleaned := cleanConfString (jsToString r)
    if cleaned = "" then none
    else match parseFloatDD cleaned with
      | none => none
      | some q => some (jsScale q)

/-- The numeric value `safeParseConfidence` extracts before applying the
`≤ 1` scaling rule: the number itself for numeric input, otherwise the
parse of the cleaned string coercion. -/
def rawConfNumber (raw : JSVal) : Option ℚ :=
  if raw = .vNull ∨ raw = .vUndefined ∨ raw = .vStr "" then none
  else match raw with
  | .vNum q => some q
  | .vNaN => none
  | r =>
    let cleaned := cleanConfString (jsToString r)
    if cleaned = "" then none
    else parseFloatDD cleaned

/- =====================  Date parser  ===================== -/

/-- Gregorian leap year. -/
def jsIsLeapYear (y : Int) : Bool :=
  (y % 4 = 0 && y % 100 ≠ 0) || y % 400 = 0

/-- Days in a month of the proleptic Gregorian calendar. -/
def daysInMonth (y m : Int) : Int :=
  if m = 2 then (if jsIsLeapYear y then 29 else 28)
  else if m = 4 ∨ m = 6 ∨ m = 9 ∨ m = 11 then 30 else 31

/-- Days from 1970-01-01 to the civil date `y-m-d` (valid for the whole
proleptic Gregorian calendar; Hinnant's `days_from_civil`). -/
def daysFromCivil (y m d : Int) : Int :=
  let yy := if m ≤ 2 then y - 1 else y
  let era := Int.fdiv yy 400
  let yoe := yy - era * 400
  let mp := if 2 < m then m - 3 else m + 9
  let doy := (153 * mp + 2) / 5 + d - 1
  let doe := yoe * 365 + yoe / 4 - yoe / 100 + doy
  era * 146097 + doe - 719468

/-- Civil date `(y, m, d)` of a number of days since 1970-01-01
(Hinnant's `civil_from_days`). -/
def civilFromDays (z0 : Int) : Int × Int × Int :=
  let z := z0 + 719468
  let era := Int.fdiv z 146097
  let doe := z - era * 146097
  let yoe := (doe - doe / 1460 + doe / 36524 - doe / 146096) / 365
  let y := yoe + era * 400
  let doy := doe - (365 * yoe + yoe / 4 - yoe / 100)
  let mp := (5 * doy + 2) / 153
  let d := doy - (153 * mp + 2) / 5 + 1
  let m := if mp < 10 then mp + 3 else mp - 9
  (if m ≤ 2 then y + 1 else y, m, d)

/-- Zero-padded decimal rendering of a nonnegative integer to `w` digits. -/
def padNum (w : Nat) (n : Int) : String :=
  let s := toString n.toNat
  String.mk (List.replicate (w - s.length) '0') ++ s

/-- `Date.prototype.toISOString` for a timestamp in the four-digit-year
range (the only range the debug sink ever sees). -/
def isoString (ms : Int) : String :=
  let days := Int.ediv ms 86400000
  let rem := Int.emod ms 86400000
  let ymd := civilFromDays days
  padNum 4 ymd.1 ++ "-" ++ padNum 2 ymd.2.1 ++ "-" ++ padNum 2 ymd.2.2 ++ "T" ++
    padNum 2 (rem / 3600000) ++ ":" ++ padNum 2 (rem / 60000 % 60) ++ ":" ++
    padNum 2 (rem / 1000 % 60) ++ "." ++ padNum 3 (rem % 1000) ++ "Z"

/-- Timestamp of `new Date(y, mo-1, d, h, mi, s)` (local time, offset `tz`
milliseconds east of UTC): years 0-99 map to 1900-1999, then out-of-range
month/day/time components roll over arithmetically exactly as the JS
`Date` constructor normalizes them. -/
def componentMs (tz y mo d h mi s : Int) : Int :=
  let y1 := if 0 ≤ y ∧ y ≤ 99 then 1900 + y else y
  let tm := y1 * 12 + (mo - 1)
  let ny := Int.fdiv tm 12
  let nm := Int.fmod tm 12 + 1
  (daysFromCivil ny nm 1 + (d - 1)) * 86400000 + h * 3600000 + mi * 60000 + s * 1000 - tz

/-- Splits a character list into its leading run of decimal digits and
the remainder. -/
def splitDigits (cs : List Char) : List Char × List Char :=
  (cs.takeWhile Char.isDigit, cs.dropWhile Char.isDigit)

/-- Matcher for the regular expression
`^(\d{1,2})\/(\d{1,2})\/(\d{4})[ T](\d{1,2}):(\d{2})(?::(\d{2}))?` of
`parseCreatedDate`: returns the captured `(month, day, year, hour,
minute, second)` with a missing seconds group defaulting to 0.  The
pattern is anchored at the start only, so trailing characters are
ignored; a fixed-width group followed by a delimiter matches exactly when
the maximal digit run has the required width. -/
def matchCreatedPattern (s : String) : Option (Int × Int × Int × Int × Int × Int) :=
  let p1 := splitDigits s.toList
  if p1.1.length < 1 ∨ 2 < p1.1.length then none else
  match p1.2 with
  | '/' :: r2 =>
    let p2 := splitDigits r2
    if p2.1.length < 1 ∨ 2 < p2.1.length then none else
    (match p2.2 with
    | '/' :: r4 =>
      let p3 := splitDigits r4
      if p3.1.length ≠ 4 then none else
      (match p3.2 with
      | sep :: r6 =>
        if sep ≠ ' ' ∧ sep ≠ 'T' then none else
        let p4 := splitDigits r6
        if p4.1.length < 1 ∨ 2 < p4.1.length then none else
        (match p4.2 with
        | ':' :: r8 =>
          let p5 := splitDigits r8
          if p5.1.length < 2 then none else
          let sec : Nat :=
            if p5.1.length = 2 then
              match p5.2 with
              | ':' :: r10 =>
                let p6 := splitDigits r10
                if 2 ≤ p6.1.length then digitsToNat (p6.1.take 2) else 0
              | _ => 0
            else 0
          some ((digitsToNat p1.1 : Int), (digitsToNat p2.1 : Int),
                (digitsToNat p3.1 : Int), (digitsToNat p4.1 : Int),
                (digitsToNat (p5.1.take 2) : Int), (sec : Int))
        | _ => none)
      | [] => none)
    | _ => none)
  | _ => none

/-- Model of the host `new Date(string)` parser (V8) for the string shapes
in scope: an ISO date `YYYY-MM-DD` (UTC midnight) or a legacy
`M/D/YYYY[ H:MM[:SS]]` (local time) with strictly valid calendar and
clock components; every other string is an invalid date.  Only the
rejection of out-of-range components matters to the claims checked
here. -/
def hostDateParse (tz : Int) (s : String) : Option Int :=
  let cs := s.toList
  let p1 := splitDigits cs
  if p1.1.length = 4 then
    -- ISO YYYY-MM-DD, date only, parsed as UTC
    match p1.2 with
    | '-' :: r2 =>
      let p2 := splitDigits r2
      if p2.1.length ≠ 2 then none else
      (match p2.2 with
      | '-' :: r4 =>
        let p3 := splitDigits r4
        if p3.1.length ≠ 2 ∨ p3.2 ≠ [] then none else
        let y := (digitsToNat p1.1 : Int)
        let m := (digitsToNat p2.1 : Int)
        let d := (digitsToNat p3.1 : Int)
        if 1 ≤ m ∧ m ≤ 12 ∧ 1 ≤ d ∧ d ≤ daysInMonth y m then
          some (daysFromCivil y m d * 86400000)
        else none
      | _ => none)
    | _ => none
  else
    -- legacy M/D/YYYY with optional H:MM[:SS], local time
    if p1.1.length < 1 ∨ 2 < p1.1.length then none else
    match p1.2 with
    | '/' :: r2 =>
      let p2 := splitDigits r2
      if p2.1.length < 1 ∨ 2 < p2.1.length then none else
      (match p2.2 with
      | '/' :: r4 =>
        let p3 := splitDigits r4
        if p3.1.length ≠ 4 then none else
        let m := (digitsToNat p1.1 : Int)
        let d := (digitsToNat p2.1 : Int)
        let y := (digitsToNat p3.1 : Int)
        if ¬(1 ≤ m ∧ m ≤ 12 ∧ 1 ≤ d ∧ d ≤ daysInMonth y m) then none else
        (match p3.2 with
        | [] => some (daysFromCivil y m d * 86400000 - tz)
        | ' ' :: r6 =>
          let p4 := splitDigits r6
          if p4.1.length < 1 ∨ 2 < p4.1.length then none else
          (match p4.2 with
          | ':' :: r8 =>
            let p5 := splitDigits r8
            if p5.1.length ≠ 2 then none else
            let h := (digitsToNat p4.1 : Int)
            let mi := (digitsToNat p5.1 : Int)
            let sec : Option Int :=
              match p5.2 with
              | [] => some 0
              | ':' :: r10 =>
                let p6 := splitDigits r10
                if p6.1.length ≠ 2 ∨ p6.2 ≠ [] then none
                else some ((digitsToNat p6.1 : Int))
              | _ => none
            match sec with
            | none => none
            | some sc =>
              if h ≤ 23 ∧ mi ≤ 59 ∧ sc ≤ 59 then
                some (daysFromCivil y m d * 86400000 + h * 3600000 + mi * 60000 + sc * 1000 - tz)
              else none
          | _ => none)
        | _ => none)
      | _ => none)
    | _ => none

/-- Embedding of `parseCreatedDate` (app_script.js lines 300-323), with
`some ms` for a valid `Date` and `none` for the `Invalid` sentinel.  The
numeric-serial branch checks validity (`!isNaN(d)`, i.e. the ±8.64e15 ms
range) exactly as the source does; the final component-construction
branch returns unchecked exactly as the source's last line does. -/
def parseCreatedDate (tz : Int) (raw : JSVal) : Option Int :=
  match raw with
  | .vDate ms => some ms
  | .vNum q =>
    let ms := jsRound ((q - 25569) * 86400000)
    if ms.natAbs ≤ 8640000000000000 then some ms else none
  | .vStr s0 =>
    let s := jsTrim s0
    (match hostDateParse tz s with
    | some t => some t
    | none =>
      match matchCreatedPattern s with
      | none => none
      | some (mo, d, y, h, mi, sec) => some (componentMs tz y mo d h mi sec))
  | _ => none

/- =====================  Records and qualification  ===================== -/

/-- A record row as produced by `getSheetDataAsObjects`: an association of
header names to cell values; a missing field reads as `undefined`. -/
def Record : Type := List (String × JSVal)

/-- Field access `row[key]` (JS property lookup; absent gives `undefined`). -/
def Record.get (r : Record) (k : String) : JSVal :=
  match List.lookup k r with
  | some v => v
  | none => .vUndefined

/-- The global `CONF_THRESHOLD` constant (app_script.js line 28). -/
def CONF_THRESHOLD : ℚ := 60

/-- The reason-string cascade of `mainTrendPipeline` (app_script.js lines
95-101). -/
def reasonOf (issueConf rootConf : Option ℚ) : String :=
  match issueConf, rootConf with
  | none, none => "❌ Missing both confidences"
  | none, some _ => "❌ Invalid issue confidence"
  | some _, none => "❌ Invalid root confidence"
  | some ic, some rc =>
    if ic < CONF_THRESHOLD ∧ rc < CONF_THRESHOLD then "❌ Both below threshold"
    else if ic < CONF_THRESHOLD then "❌ Issue confidence below threshold"
    else if rc < CONF_THRESHOLD then "❌ Root confidence below threshold"
    else "✅"

/-- The seven mutually-refined qualification states of the specification, in
its precedence order: the six failure reasons, then pass. -/
def qualStates (ic rc : Option ℚ) : List Bool :=
  [ ic.isNone && rc.isNone,
    ic.isNone && rc.isSome,
    ic.isSome && rc.isNone,
    (match ic, rc with
     | some a, some b => decide (a < CONF_THRESHOLD) && decide (b < CONF_THRESHOLD)
     | _, _ => false),
    (match ic, rc with
     | some a, some b => decide (a < CONF_THRESHOLD) && !decide (b < CONF_THRESHOLD)
     | _, _ => false),
    (match ic, rc with
     | some a, some b => !decide (a < CONF_THRESHOLD) && decide (b < CONF_THRESHOLD)
     | _, _ => false),
    (match ic, rc with
     | some a, some b => !decide (a < CONF_THRESHOLD) && !decide (b < CONF_THRESHOLD)
     | _, _ => false) ]

/-- The `inWindow` test of the filter callback: parsed date valid and at or
after the cutoff (app_script.js line 88). -/
def inWindowOf (cutoff tz : Int) (r : Record) : Bool :=
  match parseCreatedDate tz (r.get "Created") with
  | some t => decide (cutoff ≤ t)
  | none => false

/-- The filter callback's return value `inWindow && reason === "✅"`
(app_script.js line 116). -/
def includedOf (cutoff tz : Int) (r : Record) : Bool :=
  inWindowOf cutoff tz r &&
    decide (reasonOf (safeParseConfidence (r.get "AI Issue Type Confidence"))
      (safeParseConfidence (r.get "AI Root Cause Confidence")) = "✅")

/-- Rendering of a parsed confidence back into a debug cell (`null` or the
number, app_script.js lines 109/111). -/
def optConfVal : Option ℚ → JSVal
  | some q => .vNum q
  | none => .vNull

/-- The debug row pushed for the record at 0-based data index `i`
(app_script.js lines 103-114). -/
def debugRowOf (cutoff tz : Int) (i : Nat) (r : Record) : List JSVal :=
  let created := parseCreatedDate tz (r.get "Created")
  let issueConf := safeParseConfidence (r.get "AI Issue Type Confidence")
  let rootConf := safeParseConfidence (r.get "AI Root Cause Confidence")
  [ .vNum ((i : ℚ) + 2),
    r.get "Created",
    .vStr (match created with | some t => isoString t | none => "Invalid"),
    jsOr (r.get "Summary") (.vStr ""),
    jsOr (r.get "AI Issue Type") (.vStr ""),
    optConfVal issueConf,
    jsOr (r.get "AI Root Cause") (.vStr ""),
    optConfVal rootConf,
    .vStr (if inWindowOf cutoff tz r then "Recent" else "Old"),
    .vStr (reasonOf issueConf rootConf) ]

/-- One pass of `data.filter(...)` in `mainTrendPipeline` together with its
`debugRows.push` side effect, from data index `i` on: returns the debug
table and the qualified subset (app_script.js lines 86-117). -/
def pipelineAux (cutoff tz : Int) : Nat → List Record → List (List JSVal) × List Record
  | _, [] => ([], [])
  | i, r :: rest =>
    let p := pipelineAux cutoff tz (i + 1) rest
    (debugRowOf cutoff tz i r :: p.1,
     if includedOf cutoff tz r then r :: p.2 else p.2)

/-- The filtering stage of `mainTrendPipeline`: debug rows for every input
record plus the `recentQualified` subset. -/
def pipelineRun (cutoff tz : Int) (data : List Record) : List (List JSVal) × List Record :=
  pipelineAux cutoff tz 0 data

/- =====================  Aggregator  ===================== -/

/-- One output line of `summarizeByKey`: `{key, count, avg}`. -/
structure GroupSummary where
  key : String
  count : Nat
  avg : ℚ
deriving DecidableEq, Repr

/-- Accumulator entry of the grouping object: key, count, confidence total. -/
abbrev GroupAcc := String × Nat × ℚ

/-- The label grouped under: `row[keyField] || "Unknown"`, coerced to a
property-key string. -/
def normKey (v : JSVal) : String :=
  if truthy v then jsToString v else "Unknown"

/-- A record's grouping key for label field `kF`. -/
def keyOf (kF : String) (r : Record) : String := normKey (r.get kF)

/-- A record's confidence contribution:
`safeParseConfidence(row[confidenceField]) ?? 0`. -/
def confVal (cF : String) (r : Record) : ℚ :=
  match safeParseConfidence (r.get cF) with
  | some q => q
  | none => 0

/-- Property update `map[key]` on the grouping object: bump an existing
entry in place, else append a new one (JS object insertion order). -/
def updateEntry (es : List GroupAcc) (k : String) (c : ℚ) : List GroupAcc :=
  match es with
  | [] => [(k, 1, c)]
  | e :: rest =>
    if e.1 = k then (e.1, e.2.1 + 1, e.2.2 + c) :: rest
    else e :: updateEntry rest k c

/-- The `data.forEach` accumulation loop of `summarizeByKey`
(app_script.js lines 344-350). -/
def accumGroups (kF cF : String) : List Record → List GroupAcc → List GroupAcc
  | [], es => es
  | r :: rest, es => accumGroups kF cF rest (updateEntry es (keyOf kF r) (confVal cF r))

/-- Whether a string is a canonical array-index property key (an integer
in `[0, 2^32-2]` with no leading zero): `Object.entries` enumerates such
keys first, in ascending numeric order, before string keys in insertion
order. -/
def isArrayIndexStr (s : String) : Bool :=
  s ≠ "" && s.toList.all Char.isDigit && (s = "0" || s.toList.headD '0' ≠ '0')
    && (digitsToNat s.toList < 4294967295)

/-- Numeric value of an array-index key. -/
def keyNumOf (e : GroupAcc) : Nat := digitsToNat e.1.toList

/-- Ascending insertion by numeric key value (ties keep earlier first). -/
def insertAscByKey (e : GroupAcc) : List GroupAcc → List GroupAcc
  | [] => [e]
  | h :: t => if keyNumOf e ≤ keyNumOf h then e :: h :: t else h :: insertAscByKey e t

/-- Sorts entries by numeric key value ascending. -/
def sortAscByKey (es : List GroupAcc) : List GroupAcc :=
  es.foldr insertAscByKey []

/-- `Object.entries` enumeration order of the grouping object: array-index
keys first in ascending numeric order, then the remaining keys in
insertion order. -/
def jsObjKeyOrder (es : List GroupAcc) : List GroupAcc :=
  sortAscByKey (es.filter (fun e => isArrayIndexStr e.1))
    ++ es.filter (fun e => !isArrayIndexStr e.1)

/-- Stable insertion of a group before the first strictly-smaller count:
together with `sortByCountDesc` this is the stable descending sort that
`Array.prototype.sort((a,b) => b.count - a.count)` performs. -/
def insertDesc (g : GroupSummary) : List GroupSummary → List GroupSummary
  | [] => [g]
  | h :: t => if h.count ≤ g.count then g :: h :: t else h :: insertDesc g t

/-- Stable sort by count descending. -/
def sortByCountDesc (gs : List GroupSummary) : List GroupSummary :=
  gs.foldr insertDesc []

/-- Embedding of `summarizeByKey` (app_script.js lines 342-356). -/
def summarizeByKey (data : List Record) (kF cF : String) : List GroupSummary :=
  let entries := accumGroups kF cF data []
  let groups := (jsObjKeyOrder entries).map
    (fun e => GroupSummary.mk e.1 e.2.1 (toFixed1 (e.2.2 / (e.2.1 : ℚ))))
  (sortByCountDesc groups).take 5

/-- First-occurrence deduplication, preserving discovery order. -/
def firstDedup : List String → List String
  | [] => []
  | k :: t => k :: (firstDedup t).filter (fun k' => decide (k' ≠ k))

/-- Number of records of `data` grouped under key `k`. -/
def groupCount (data : List Record) (kF k : String) : Nat :=
  data.countP (fun r => decide (keyOf kF r = k))

/-- Total confidence contribution of the records grouped under key `k`. -/
def groupTotal (data : List Record) (kF cF k : String) : ℚ :=
  (data.map (fun r => if keyOf kF r = k then confVal cF r else 0)).sum

/-- Formalization of the claim's description of the aggregator: group keys
in the order they are first discovered (original record order), each with
its record count and mean confidence (sum over count, rounded to one
decimal), stably sorted by count descending and truncated to the top 5. -/
def specSummarizeByKey (data : List Record) (kF cF : String) : List GroupSummary :=
  let ks := firstDedup (data.map (keyOf kF))
  let groups := ks.map (fun k =>
    GroupSummary.mk k (groupCount data kF k)
      (toFixed1 (groupTotal data kF cF k / (groupCount data kF k : ℚ))))
  (sortByCountDesc groups).take 5

/- =====================  Fill engine  ===================== -/

/-- The fixed allowed issue-type labels (app_script.js lines 53-56). -/
def ISSUE_TYPES_DEMO : List String :=
  ["Update Requests", "Missing Records", "Inventory - Tracking", "Image Adjustments",
   "Policy - Config", "Taxonomy Update", "Photo Update", "Item Onboarding",
   "General Inquiry", "Other"]

/-- The fixed allowed root-cause labels (app_script.js lines 57-59). -/
def ROOT_CAUSES_DEMO : List String :=
  ["Data Inconsistency", "Human Error", "System Limitation", "Onboarding Gaps",
   "Incorrect Input", "Other"]

/-- The configured mirror-mode source fields (app_script.js lines 43-44). -/
def SOURCE_ISSUE_FIELD : String := "Issue Type (MNSD)"

/-- The configured mirror-mode root-cause source field. -/
def SOURCE_CAUSE_FIELD : String := "Root Cause"

/-- The four classification columns the fill engine requires
(app_script.js lines 162-167). -/
def requiredCols : List String :=
  ["AI Issue Type", "AI Issue Type Confidence", "AI Root Cause", "AI Root Cause Confidence"]

/-- The header-to-index object built by `Object.fromEntries` (later
duplicate headers overwrite earlier ones, so the last position wins). -/
def idxOf (hs : List String) (h : String) : Option Nat :=
  match hs with
  | [] => none
  | a :: t =>
    match idxOf t h with
    | some i => some (i + 1)
    | none => if a = h then some 0 else none

/-- The column-creation pass: append each missing required column name
(app_script.js lines 168-177). -/
def ensureHeaders (hs : List String) : List String :=
  requiredCols.foldl (fun acc c => if c ∈ acc then acc else acc ++ [c]) hs

/-- Array read `row[i]` (out-of-range reads give `undefined`; an absent
column index reads as `undefined` too). -/
def getCellI (row : List JSVal) (i : Option Nat) : JSVal :=
  match i with
  | some k => row.getD k .vUndefined
  | none => .vUndefined

/-- Array write `row[k] = v`, extending a too-short row with `undefined`
holes exactly as JS sparse assignment reads back. -/
def setAt (row : List JSVal) (k : Nat) (v : JSVal) : List JSVal :=
  if k < row.length then row.set k v
  else row ++ List.replicate (k - row.length) .vUndefined ++ [v]

/-- Array write through an optional column index (the fill engine only
ever writes columns that exist after `ensureHeaders`). -/
def setCellI (row : List JSVal) (i : Option Nat) (v : JSVal) : List JSVal :=
  match i with
  | some k => setAt row k v
  | none => row

/-- The emptiness test driving "needs fill":
`aiIssue === "" || aiIssue === null` (app_script.js lines 192-193).
Note that a strict-equality comparison with `null` is false for
`undefined`. -/
def isEmptyCell (v : JSVal) : Bool :=
  v = JSVal.vStr "" || v = JSVal.vNull

/-- `randPick(arr)`: uniform choice driven by one `Math.random()` draw
`u` (app_script.js line 180). -/
def randPick (arr : List String) (u : ℚ) : JSVal :=
  let i := ⌊u * (arr.length : ℚ)⌋
  if i < 0 then .vUndefined
  else match arr.get? i.toNat with
    | some s => .vStr s
    | none => .vUndefined

/-- `randConf()`: `max(30, min(99, round(65 + (u - 0.5) * 20)))` driven by
one `Math.random()` draw `u` (app_script.js line 181). -/
def randConf (u : ℚ) : ℚ :=
  max 30 (min 99 ((jsRound (65 + (u - 1/2) * 20) : ℚ)))

/-- The structured result of the external classification collaborator
`predictIssueAndCauseViaGPT_`; confidence fields are `Option` because the
source checks them against `null` with a loose comparison. -/
structure GPTPred where
  issueType : JSVal
  issueConfidence : Option ℚ
  rootCause : JSVal
  rootConfidence : Option ℚ

/-- One iteration of the fill loop body on one row (app_script.js lines
184-245).  `rng` is the stream of `Math.random()` draws and `n` the index
of the next unconsumed draw; the returned index accounts for every draw
the branch actually performs, in source order. -/
def fillRow (mode : String) (apiKey : Option String)
    (classify : JSVal → JSVal → Option GPTPred)
    (hs : List String) (rng : Nat → ℚ) (n : Nat) (row : List JSVal) :
    List JSVal × Nat :=
  let iIssue := idxOf hs "AI Issue Type"
  let iIssueC := idxOf hs "AI Issue Type Confidence"
  let iCause := idxOf hs "AI Root Cause"
  let iCauseC := idxOf hs "AI Root Cause Confidence"
  let aiIssue := getCellI row iIssue
  let aiIssueConf := getCellI row iIssueC
  let aiCause := getCellI row iCause
  let aiCauseConf := getCellI row iCauseC
  let needsIssue := isEmptyCell aiIssue
  let needsCause := isEmptyCell aiCause
  if !needsIssue && !needsCause then (row, n)
  else match mode with
  | "mirror" =>
    let srcIssue := if SOURCE_ISSUE_FIELD ∈ hs then getCellI row (idxOf hs SOURCE_ISSUE_FIELD) else .vStr ""
    let srcCause := if SOURCE_CAUSE_FIELD ∈ hs then getCellI row (idxOf hs SOURCE_CAUSE_FIELD) else .vStr ""
    let st1 :=
      if needsIssue then
        let pick := if truthy srcIssue then (srcIssue, n) else (randPick ISSUE_TYPES_DEMO (rng n), n + 1)
        let row1 := setCellI row iIssue pick.1
        let row2 := setCellI row1 iIssueC (jsOr aiIssueConf (.vNum 90))
        (row2, pick.2)
      else (row, n)
    if needsCause then
      let pick := if truthy srcCause then (srcCause, st1.2) else (randPick ROOT_CAUSES_DEMO (rng st1.2), st1.2 + 1)
      let row1 := setCellI st1.1 iCause pick.1
      let row2 := setCellI row1 iCauseC (jsOr aiCauseConf (.vNum 90))
      (row2, pick.2)
    else st1
  | "mock" =>
    let st1 :=
      if needsIssue then
        (setCellI (setCellI row iIssue (randPick ISSUE_TYPES_DEMO (rng n))) iIssueC
           (.vNum (randConf (rng (n + 1)))), n + 2)
      else (row, n)
    if needsCause then
      (setCellI (setCellI st1.1 iCause (randPick ROOT_CAUSES_DEMO (rng st1.2))) iCauseC
         (.vNum (randConf (rng (st1.2 + 1)))), st1.2 + 2)
    else st1
  | "gpt" =>
    match apiKey with
    | none =>
      let st1 :=
        if needsIssue then
          (setCellI (setCellI row iIssue (randPick ISSUE_TYPES_DEMO (rng n))) iIssueC
             (.vNum (randConf (rng (n + 1)))), n + 2)
        else (row, n)
      if needsCause then
        (setCellI (setCellI st1.1 iCause (randPick ROOT_CAUSES_DEMO (rng st1.2))) iCauseC
           (.vNum (randConf (rng (st1.2 + 1)))), st1.2 + 2)
      else st1
    | some _ =>
      let summary := match idxOf hs "Summary" with
        | some k => row.getD k .vUndefined
        | none => .vStr ""
      let description := match idxOf hs "Description" with
        | some k => row.getD k .vUndefined
        | none => .vStr ""
      let pred := classify summary description
      let st1 :=
        if needsIssue then
          let lab := match pred with
            | some p => if truthy p.issueType then (p.issueType, n) else (randPick ISSUE_TYPES_DEMO (rng n), n + 1)
            | none => (randPick ISSUE_TYPES_DEMO (rng n), n + 1)
          let cnf := match pred with
            | some p =>
              match p.issueConfidence with
              | some q => ((JSVal.vNum ((jsRound (q * 100) : Int) : ℚ)), lab.2)
              | none => (JSVal.vNum (randConf (rng lab.2)), lab.2 + 1)
            | none => (JSVal.vNum (randConf (rng lab.2)), lab.2 + 1)
          (setCellI (setCellI row iIssue lab.1) iIssueC cnf.1, cnf.2)
        else (row, n)
      if needsCause then
        let lab := match pred with
          | some p => if truthy p.rootCause then (p.rootCause, st1.2) else (randPick ROOT_CAUSES_DEMO (rng st1.2), st1.2 + 1)
          | none => (randPick ROOT_CAUSES_DEMO (rng st1.2), st1.2 + 1)
        let cnf := match pred with
          | some p =>
            match p.rootConfidence with
            | some q => ((JSVal.vNum ((jsRound (q * 100) : Int) : ℚ)), lab.2)
            | none => (JSVal.vNum (randConf (rng lab.2)), lab.2 + 1)
          | none => (JSVal.vNum (randConf (rng lab.2)), lab.2 + 1)
        (setCellI (setCellI st1.1 iCause lab.1) iCauseC cnf.1, cnf.2)
      else st1
  | _ => (row, n)

/-- The `for (let r = 1; ...)` loop over data rows (app_script.js lines
184-245), threading the random stream. -/
def fillRows (mode : String) (apiKey : Option String)
    (classify : JSVal → JSVal → Option GPTPred)
    (hs : List String) (rng : Nat → ℚ) : Nat → List (List JSVal) → List (List JSVal)
  | _, [] => []
  | n, row :: rest =>
    let st := fillRow mode apiKey classify hs rng n row
    st.1 :: fillRows mode apiKey classify hs rng st.2 rest

/-- Embedding of `ensureAIFieldsPopulated` (app_script.js lines 150-249)
on the in-memory value matrix: header row plus data rows in, header row
plus data rows out.  `values.length < 2` (no data rows) returns the input
unchanged before any column is added, exactly as the source's early
return does. -/
def ensureAIFieldsPopulated (mode : String) (apiKey : Option String)
    (classify : JSVal → JSVal → Option GPTPred) (rng : Nat → ℚ)
    (headers : List String) (rows : List (List JSVal)) :
    List String × List (List JSVal) :=
  if rows.isEmpty then (headers, rows)
  else
    let hs := ensureHeaders headers
    (hs, fillRows mode apiKey classify hs rng 0 rows)

/-- Field read by header name, as the pipeline later reads the committed
matrix back through `getSheetDataAsObjects`. -/
def getFieldByName (hs : List String) (row : List JSVal) (h : String) : JSVal :=
  getCellI row (idxOf hs h)

/- =====================  Helper lemmas  ===================== -/

/-- `safeParseConfidence` factors as the raw numeric extraction followed by
the `≤ 1` scaling rule. -/
theorem safeParseConfidence_eq_scale (raw : JSVal) :
    safeParseConfidence raw = (rawConfNumber raw).map jsScale := by
  cases raw <;> simp only [safeParseConfidence, rawConfNumber] <;>
    try simp +decide
  case vStr s =>
    by_cases h : s = ""
    · simp [h]
    · simp only [h, reduceCtorEq, or_self, or_false, if_false, JSVal.vStr.injEq, false_or,
        if_neg h]
      by_cases hc : cleanConfString (jsToString (JSVal.vStr s)) = ""
      · simp [hc]
      · simp only [hc, if_neg hc]
        cases parseFloatDD (cleanConfString (jsToString (JSVal.vStr s))) <;> simp
  case vBool b =>
    by_cases hc : cleanConfString (jsToString (JSVal.vBool b)) = ""
    · simp [hc]
    · simp only [hc, if_neg hc]
      cases parseFloatDD (cleanConfString (jsToString (JSVal.vBool b))) <;> simp
  case vDate ms =>
    by_cases hc : cleanConfString (jsToString (JSVal.vDate ms)) = ""
    · simp [hc]
    · simp only [hc, if_neg hc]
      cases parseFloatDD (cleanConfString (jsToString (JSVal.vDate ms))) <;> simp

/- =====================  C2  ===================== -/

/-- C2 (counterexample): the claim that `parseConfidence` always returns
`null` or a number in `[0,100]` fails: the numeric input `200` is above 1,
passes through unscaled, and `200 > 100`. -/
theorem safeParseConfidence_out_of_range :
    safeParseConfidence (.vNum 200) = some 200 ∧ ¬((200 : ℚ) ≤ 100) := by
  constructor
  · simp +decide [safeParseConfidence, jsScale]
  · norm_num

/-- C2 (amended): `parseConfidence` returns either `null` or a number, and
the number lies in `[0,100]` whenever the underlying numeric value (the
number itself, or the parsed cleaned string) lies in `[0,100]`;
out-of-range values are passed through (scaled by 100 when `≤ 1`). -/
theorem safeParseConfidence_in_range (raw : JSVal) (v : ℚ)
    (h : rawConfNumber raw = some v) (h0 : 0 ≤ v) (h1 : v ≤ 100) :
    ∃ x, safeParseConfidence raw = some x ∧ 0 ≤ x ∧ x ≤ 100 := by
  refine ⟨jsScale v, ?_, ?_, ?_⟩
  · rw [safeParseConfidence_eq_scale, h, Option.map_some']
  · unfold jsScale; split <;> nlinarith
  · unfold jsScale; split <;> nlinarith

/-- C2 witness: the string `"72%"` has underlying value 72 and parses to a
number inside `[0,100]`. -/
theorem safeParseConfidence_in_range_witness :
    rawConfNumber (.vStr "72%") = some 72 ∧
      ∃ x, safeParseConfidence (.vStr "72%") = some x ∧ 0 ≤ x ∧ x ≤ 100 :=
  ⟨by decide, safeParseConfidence_in_range (.vStr "72%") 72 (by decide) (by norm_num) (by norm_num)⟩

/- =====================  C5  ===================== -/

/-- C5: `parseConfidence` scales numeric inputs `≤ 1` by 100 and passes
numeric inputs `> 1` through unchanged; string inputs are reduced to their
digit-and-dot characters before parsing (so two non-empty strings with the
same cleaned form parse identically); and the spec's five examples hold. -/
theorem safeParseConfidence_contract :
    (∀ q : ℚ, q ≤ 1 → safeParseConfidence (.vNum q) = some (q * 100)) ∧
    (∀ q : ℚ, 1 < q → safeParseConfidence (.vNum q) = some q) ∧
    (∀ s t : String, s ≠ "" → t ≠ "" → cleanConfString s = cleanConfString t →
       safeParseConfidence (.vStr s) = safeParseConfidence (.vStr t)) ∧
    safeParseConfidence (.vNum (3/5)) = some 60 ∧
    safeParseConfidence (.vNum 75) = some 75 ∧
    safeParseConfidence (.vStr "") = none ∧
    safeParseConfidence (.vStr "abc") = none ∧
    safeParseConfidence (.vStr "72%") = some 72 := by
  refine ⟨?_, ?_, ?_, ?_, ?_, ?_, ?_, ?_⟩
  · intro q h; simp +decide [safeParseConfidence, jsScale, h]
  · intro q h; simp +decide [safeParseConfidence, jsScale, not_le.mpr h]
  · intro s t hs ht hc
    simp only [safeParseConfidence, jsToString, reduceCtorEq, or_self, or_false, false_or,
      JSVal.vStr.injEq, if_neg hs, if_neg ht, hc]
  · have h := (by norm_num : (3:ℚ)/5 ≤ 1)
    simp +decide [safeParseConfidence, jsScale, h]; norm_num
  · simp +decide [safeParseConfidence, jsScale]
  · decide
  · decide
  · decide

/-- C5 witness: the scaling branches and the cleaning invariance applied at
concrete inputs. -/
theorem safeParseConfidence_contract_witness :
    safeParseConfidence (.vNum (1/2)) = some 50 ∧
    safeParseConfidence (.vNum 150) = some 150 ∧
    safeParseConfidence (.vStr "x7y2") = safeParseConfidence (.vStr "7--2") :=
  ⟨by rw [safeParseConfidence_contract.1 (1/2) (by norm_num)]; norm_num,
   safeParseConfidence_contract.2.1 150 (by norm_num),
   safeParseConfidence_contract.2.2.1 "x7y2" "7--2" (by decide) (by decide) (by decide)⟩

/- =====================  C6  ===================== -/

/-- C6 (counterexample): the claim that `parseCreated("13/45/2024 10:00")`
yields `Invalid` fails: the pattern does match (13 and 45 are both 1-2
digit runs), and the JS `Date` component constructor rolls the
out-of-range month and day over, producing the valid local time
2025-02-14T10:00. -/
theorem parseCreatedDate_rollover_cx :
    parseCreatedDate 0 (.vStr "13/45/2024 10:00") = some 1739527200000 ∧
    isoString 1739527200000 = "2025-02-14T10:00:00.000Z" := by
  constructor <;> decide

/-- C6 (amended): `parseCreated` interprets numeric input as a days serial
under the 1899-12-30 epoch (`(raw - 25569) * 86400 * 1000` ms), so
`parseCreated(44000)` is the timestamp `18431 * 86400000`
(2020-06-18T00:00Z); but `parseCreated("13/45/2024 10:00")` is NOT the
Invalid sentinel: the date components roll over to 2025-02-14 10:00 local
time, for every time-zone offset. -/
theorem parseCreatedDate_amended (tz : Int) :
    parseCreatedDate tz (.vNum 44000) = some (18431 * 86400000) ∧
    parseCreatedDate tz (.vStr "13/45/2024 10:00") = some (1739527200000 - tz) := by
  constructor
  · simp only [parseCreatedDate, jsRound]
    norm_num
  · rfl

/- =====================  C1  ===================== -/

/-- C1: exactly one of the seven qualification states holds for any pair of
parsed confidences, the produced reason string corresponds to the active
state, and a record is included in the qualified subset exactly when its
reason is the pass marker and its parsed created date is valid and at or
after the cutoff. -/
theorem qualification_exclusive_and_inclusion :
    (∀ ic rc : Option ℚ,
       (qualStates ic rc).count true = 1 ∧
       ((qualStates ic rc).getD 0 false = true ↔ reasonOf ic rc = "❌ Missing both confidences") ∧
       ((qualStates ic rc).getD 1 false = true ↔ reasonOf ic rc = "❌ Invalid issue confidence") ∧
       ((qualStates ic rc).getD 2 false = true ↔ reasonOf ic rc = "❌ Invalid root confidence") ∧
       ((qualStates ic rc).getD 3 false = true ↔ reasonOf ic rc = "❌ Both below threshold") ∧
       ((qualStates ic rc).getD 4 false = true ↔ reasonOf ic rc = "❌ Issue confidence below threshold") ∧
       ((qualStates ic rc).getD 5 false = true ↔ reasonOf ic rc = "❌ Root confidence below threshold") ∧
       ((qualStates ic rc).getD 6 false = true ↔ reasonOf ic rc = "✅")) ∧
    (∀ (cutoff tz : Int) (r : Record),
       includedOf cutoff tz r = true ↔
         ((∃ t, parseCreatedDate tz (r.get "Created") = some t ∧ cutoff ≤ t) ∧
          reasonOf (safeParseConfidence (r.get "AI Issue Type Confidence"))
            (safeParseConfidence (r.get "AI Root Cause Confidence")) = "✅")) := by
  constructor
  · intro ic rc
    cases ic with
    | none => cases rc <;> simp +decide [qualStates, reasonOf]
    | some a =>
      cases rc with
      | none => simp +decide [qualStates, reasonOf]
      | some b =>
        by_cases ha : a < CONF_THRESHOLD <;> by_cases hb : b < CONF_THRESHOLD <;>
          simp +decide [qualStates, reasonOf, ha, hb]
  · intro cutoff tz r
    unfold includedOf inWindowOf
    cases hp : parseCreatedDate tz (r.get "Created") <;> simp [hp]

/- =====================  C9  ===================== -/

/-- The debug component of the filter pass is an index-tagged map over the
input records. -/
theorem pipelineAux_fst (cutoff tz : Int) :
    ∀ (data : List Record) (i : Nat),
      (pipelineAux cutoff tz i data).1 =
        data.mapIdx (fun j r => debugRowOf cutoff tz (i + j) r) := by
  intro data
  induction data with
  | nil => intro i; simp [pipelineAux]
  | cons r rest ih =>
    intro i
    simp only [pipelineAux, ih (i + 1), List.mapIdx_cons]
    have hfun : (fun j x => debugRowOf cutoff tz (i + 1 + j) x) =
        (fun j x => debugRowOf cutoff tz (i + (j + 1)) x) := by
      funext j x
      congr 1
      omega
    rw [hfun]
    simp

/-- The qualified component of the filter pass is the filter by the
inclusion predicate. -/
theorem pipelineAux_snd (cutoff tz : Int) :
    ∀ (data : List Record) (i : Nat),
      (pipelineAux cutoff tz i data).2 = data.filter (includedOf cutoff tz) := by
  intro data
  induction data with
  | nil => intro i; simp [pipelineAux]
  | cons r rest ih =>
    intro i
    simp only [pipelineAux, ih (i + 1), List.filter_cons]

/-- C9: the filter pass emits exactly one debug row per input record, in
input order (the debug table is the index-tagged map of the debug-row
builder over the input), and independently of inclusion or exclusion; the
qualified subset is the filter by the inclusion predicate. -/
theorem pipeline_one_debug_row_per_record (cutoff tz : Int) (data : List Record) :
    (pipelineRun cutoff tz data).1 = data.mapIdx (debugRowOf cutoff tz) ∧
    (pipelineRun cutoff tz data).1.length = data.length ∧
    (pipelineRun cutoff tz data).2 = data.filter (includedOf cutoff tz) := by
  refine ⟨?_, ?_, ?_⟩
  · rw [pipelineRun, pipelineAux_fst]
    congr 1
    funext j r
    simp
  · rw [pipelineRun, pipelineAux_fst]
    simp
  · rw [pipelineRun, pipelineAux_snd]

/- =====================  C10  ===================== -/

/-- C10: every falsy label value — not only empty or absent ones — is
grouped under the sentinel `"Unknown"`. -/
theorem summarize_falsy_label_unknown (v : JSVal) (h : truthy v = false) :
    summarizeByKey [[("L", v), ("C", .vNum 80)]] "L" "C" =
      [GroupSummary.mk "Unknown" 1 80] := by
  have hk : keyOf "L" [("L", v), ("C", .vNum 80)] = "Unknown" := by
    simp +decide [keyOf, Record.get, normKey, h, List.lookup]
  have hc : confVal "C" [("L", v), ("C", .vNum 80)] = 80 := by
    simp +decide [confVal, Record.get, List.lookup, safeParseConfidence, jsScale]
  simp only [summarizeByKey, accumGroups, hk, hc, updateEntry]
  simp +decide [jsObjKeyOrder, isArrayIndexStr, sortAscByKey, sortByCountDesc, insertDesc,
    GroupSummary.mk.injEq]
  norm_num [toFixed1, jsRound]

/-- C10 witness: the number `0` and the boolean `false` are both grouped
under `"Unknown"`. -/
theorem summarize_falsy_label_unknown_witness :
    summarizeByKey [[("L", JSVal.vNum 0), ("C", JSVal.vNum 80)]] "L" "C" =
      [GroupSummary.mk "Unknown" 1 80] ∧
    summarizeByKey [[("L", JSVal.vBool false), ("C", JSVal.vNum 80)]] "L" "C" =
      [GroupSummary.mk "Unknown" 1 80] :=
  ⟨summarize_falsy_label_unknown _ (by decide), summarize_falsy_label_unknown _ (by decide)⟩

/- =====================  C8  ===================== -/

/-- On any single row, gpt mode without a credential performs exactly the
mock-mode fills (and consumes the random stream identically). -/
theorem fillRow_gpt_none_eq_mock (key : Option String)
    (classify : JSVal → JSVal → Option GPTPred) (hs : List String)
    (rng : Nat → ℚ) (n : Nat) (row : List JSVal) :
    fillRow "gpt" none classify hs rng n row = fillRow "mock" key classify hs rng n row := rfl

/-- The whole fill loop in gpt mode without a credential equals the mock
loop. -/
theorem fillRows_gpt_none_eq_mock (key : Option String)
    (classify : JSVal → JSVal → Option GPTPred) (hs : List String) (rng : Nat → ℚ) :
    ∀ (n : Nat) (rows : List (List JSVal)),
      fillRows "gpt" none classify hs rng n rows = fillRows "mock" key classify hs rng n rows := by
  intro n rows
  induction rows generalizing n with
  | nil => rfl
  | cons r rest ih =>
    simp only [fillRows, fillRow_gpt_none_eq_mock key, ih]

/-- C8: with fill mode `"gpt"` and no credential configured, the fill
engine behaves identically to mock mode — same headers, same label and
confidence fills for every record, for every random source. -/
theorem gpt_without_key_behaves_as_mock (key : Option String)
    (classify : JSVal → JSVal → Option GPTPred) (rng : Nat → ℚ)
    (headers : List String) (rows : List (List JSVal)) :
    ensureAIFieldsPopulated "gpt" none classify rng headers rows =
      ensureAIFieldsPopulated "mock" key classify rng headers rows := by
  unfold ensureAIFieldsPopulated
  split
  · rfl
  · simp only [fillRows_gpt_none_eq_mock key]

/- =====================  Fill-engine helper lemmas  ===================== -/

/-- A column index found by `idxOf` points at that header name. -/
theorem idxOf_get : ∀ (hs : List String) (h : String) (i : Nat),
    idxOf hs h = some i → hs[i]? = some h := by
  intro hs
  induction hs with
  | nil => intro h i hi; simp [idxOf] at hi
  | cons a t ih =>
    intro h i hi
    simp only [idxOf] at hi
    cases ht : idxOf t h with
    | some j =>
      rw [ht] at hi
      cases hi
      simpa using ih h j ht
    | none =>
      rw [ht] at hi
      by_cases ha : a = h
      · simp [ha] at hi
        cases hi
        simp [ha]
      · simp [ha] at hi

/-- Different header names have different column indices. -/
theorem idxOf_ne {hs : List String} {a b : String} {i j : Nat}
    (hi : idxOf hs a = some i) (hj : idxOf hs b = some j) (hab : a ≠ b) : i ≠ j := by
  intro hij
  subst hij
  have h1 := idxOf_get hs a i hi
  have h2 := idxOf_get hs b i hj
  rw [h1] at h2
  exact hab (Option.some.inj h2)

/-- Writing one array cell leaves every other cell unchanged (including
the `undefined` reads of holes and out-of-range indices). -/
theorem getD_setAt_ne (row : List JSVal) (k : Nat) (v : JSVal) (i : Nat) (h : i ≠ k) :
    (setAt row k v).getD i .vUndefined = row.getD i .vUndefined := by
  unfold setAt
  split
  · simp [List.getD_eq_getElem?_getD, List.getElem?_set_ne (Ne.symm h)]
  · rename_i hk
    simp only [List.getD_eq_getElem?_getD]
    by_cases hi : i < row.length
    · rw [List.getElem?_append_left (by simp; omega :
        i < (row ++ List.replicate (k - row.length) JSVal.vUndefined).length)]
      rw [List.getElem?_append_left hi]
    · have hrow : row[i]? = none := List.getElem?_eq_none (by omega)
      rw [hrow]
      by_cases h2 : i < row.length + (k - row.length)
      · rw [List.getElem?_append_left (by simp; omega :
          i < (row ++ List.replicate (k - row.length) JSVal.vUndefined).length)]
        rw [List.getElem?_append_right (by omega : row.length ≤ i)]
        rw [List.getElem?_replicate, if_pos (by omega)]
        rfl
      · rw [List.getElem?_append_right (by simp; omega :
          (row ++ List.replicate (k - row.length) JSVal.vUndefined).length ≤ i)]
        have h3 : [v][i - (row ++ List.replicate (k - row.length) JSVal.vUndefined).length]? = none := by
          apply List.getElem?_eq_none
          simp
          omega
        rw [h3]

/-- Writing the column named `a` does not change the value read from a
differently-named column `b`. -/
theorem getField_setCell_ne (hs : List String) (r : List JSVal) (v : JSVal)
    (a b : String) (hab : a ≠ b) :
    getFieldByName hs (setCellI r (idxOf hs a) v) b = getFieldByName hs r b := by
  unfold getFieldByName setCellI getCellI
  cases ha : idxOf hs a with
  | none => rfl
  | some k =>
    cases hb : idxOf hs b with
    | none => rfl
    | some i => exact getD_setAt_ne r k v i (idxOf_ne hb ha (Ne.symm hab))

/-- Reading a differently-named column through `getCellI` is unaffected by
a fill write. -/
theorem getCellI_setCell_ne (hs : List String) (r : List JSVal) (v : JSVal)
    (a b : String) (hab : a ≠ b) :
    getCellI (setCellI r (idxOf hs a) v) (idxOf hs b) = getCellI r (idxOf hs b) :=
  getField_setCell_ne hs r v a b hab

/-- A row whose issue label is not empty keeps that label through any
single fill step, in every mode. -/
theorem fillRow_preserves_issue (mode : String) (key : Option String)
    (classify : JSVal → JSVal → Option GPTPred) (hs : List String) (rng : Nat → ℚ)
    (n : Nat) (row : List JSVal)
    (h : isEmptyCell (getCellI row (idxOf hs "AI Issue Type")) = false) :
    getCellI (fillRow mode key classify hs rng n row).1 (idxOf hs "AI Issue Type") =
      getCellI row (idxOf hs "AI Issue Type") := by
  by_cases hc : isEmptyCell (getCellI row (idxOf hs "AI Root Cause")) = true
  · simp only [fillRow, h, hc, Bool.not_false, Bool.not_true, Bool.true_and, Bool.and_false,
      Bool.false_eq_true, if_false, if_true, ite_false, ite_true]
    split <;>
      first
        | rfl
        | (rw [getCellI_setCell_ne, getCellI_setCell_ne] <;> decide)
        | (split <;>
            first
              | rfl
              | (rw [getCellI_setCell_ne, getCellI_setCell_ne] <;> decide))
  · simp only [Bool.not_eq_true] at hc
    simp [fillRow, h, hc]

/-- A row whose root-cause label is not empty keeps that label through any
single fill step, in every mode. -/
theorem fillRow_preserves_cause (mode : String) (key : Option String)
    (classify : JSVal → JSVal → Option GPTPred) (hs : List String) (rng : Nat → ℚ)
    (n : Nat) (row : List JSVal)
    (h : isEmptyCell (getCellI row (idxOf hs "AI Root Cause")) = false) :
    getCellI (fillRow mode key classify hs rng n row).1 (idxOf hs "AI Root Cause") =
      getCellI row (idxOf hs "AI Root Cause") := by
  by_cases hc : isEmptyCell (getCellI row (idxOf hs "AI Issue Type")) = true
  · simp only [fillRow, h, hc, Bool.not_false, Bool.not_true, Bool.false_and,
      Bool.false_eq_true, if_false, if_true, ite_false, ite_true]
    split <;>
      first
        | rfl
        | (rw [getCellI_setCell_ne, getCellI_setCell_ne] <;> decide)
        | (split <;>
            first
              | rfl
              | (rw [getCellI_setCell_ne, getCellI_setCell_ne] <;> decide))
  · simp only [Bool.not_eq_true] at hc
    simp [fillRow, h, hc]

/-- A row with both labels populated is returned untouched, with no random
draw consumed. -/
theorem fillRow_skip (mode : String) (key : Option String)
    (classify : JSVal → JSVal → Option GPTPred) (hs : List String) (rng : Nat → ℚ)
    (n : Nat) (row : List JSVal)
    (h1 : isEmptyCell (getCellI row (idxOf hs "AI Issue Type")) = false)
    (h2 : isEmptyCell (getCellI row (idxOf hs "AI Root Cause")) = false) :
    fillRow mode key classify hs rng n row = (row, n) := by
  simp [fillRow, h1, h2]

/-- The fill loop keeps one output row per input row. -/
theorem fillRows_length (mode : String) (key : Option String)
    (classify : JSVal → JSVal → Option GPTPred) (hs : List String) (rng : Nat → ℚ) :
    ∀ (rows : List (List JSVal)) (n : Nat),
      (fillRows mode key classify hs rng n rows).length = rows.length := by
  intro rows
  induction rows with
  | nil => intro n; rfl
  | cons r rest ih => intro n; simp [fillRows, ih]

/-- Positionwise label preservation through the fill loop. -/
theorem fillRows_preserves_at (mode : String) (key : Option String)
    (classify : JSVal → JSVal → Option GPTPred) (hs : List String) (rng : Nat → ℚ) :
    ∀ (rows : List (List JSVal)) (n : Nat) (i : Nat) (c : String),
      (c = "AI Issue Type" ∨ c = "AI Root Cause") →
      isEmptyCell (getCellI (rows.getD i []) (idxOf hs c)) = false →
      getCellI ((fillRows mode key classify hs rng n rows).getD i []) (idxOf hs c) =
        getCellI (rows.getD i []) (idxOf hs c) := by
  intro rows
  induction rows with
  | nil => intro n i c _ _; rfl
  | cons r rest ih =>
    intro n i c hcol h
    cases i with
    | zero =>
      simp only [List.getD_cons_zero] at h ⊢
      simp only [fillRows, List.getD_cons_zero]
      rcases hcol with rfl | rfl
      · exact fillRow_preserves_issue mode key classify hs rng n r h
      · exact fillRow_preserves_cause mode key classify hs rng n r h
    | succ j =>
      simp only [List.getD_cons_succ] at h ⊢
      simp only [fillRows, List.getD_cons_succ]
      exact ih _ j c hcol h

/-- On a batch whose labels are all populated the fill loop is the
identity. -/
theorem fillRows_id (mode : String) (key : Option String)
    (classify : JSVal → JSVal → Option GPTPred) (hs : List String) (rng : Nat → ℚ) :
    ∀ (rows : List (List JSVal)),
      (∀ row ∈ rows, isEmptyCell (getCellI row (idxOf hs "AI Issue Type")) = false ∧
        isEmptyCell (getCellI row (idxOf hs "AI Root Cause")) = false) →
      ∀ n, fillRows mode key classify hs rng n rows = rows := by
  intro rows
  induction rows with
  | nil => intro _ n; rfl
  | cons r rest ih =>
    intro h n
    have hr := h r (by simp)
    have hrest : ∀ row ∈ rest, _ ∧ _ := fun row hm => h row (by simp [hm])
    simp only [fillRows, fillRow_skip mode key classify hs rng n r hr.1 hr.2, ih hrest n]

/-- When every required column already exists, the column-creation pass
changes nothing. -/
theorem ensureHeaders_id (hs : List String) (h : ∀ c ∈ requiredCols, c ∈ hs) :
    ensureHeaders hs = hs := by
  have h1 := h "AI Issue Type" (by simp [requiredCols])
  have h2 := h "AI Issue Type Confidence" (by simp [requiredCols])
  have h3 := h "AI Root Cause" (by simp [requiredCols])
  have h4 := h "AI Root Cause Confidence" (by simp [requiredCols])
  simp [ensureHeaders, requiredCols, h1, h2, h3, h4]

/- =====================  C3  ===================== -/

/-- C3 (amended): the fill engine emits one output row per input row and
never overwrites a non-empty classification label in any mode (a non-empty
confidence cell, however, is rewritten whenever its label cell is filled);
and running it on a record set whose classification fields are all
populated is a no-op, so a second run after a full population changes
nothing. -/
theorem fill_never_overwrites_labels (mode : String) (key : Option String)
    (classify : JSVal → JSVal → Option GPTPred) (rng : Nat → ℚ)
    (headers : List String) (rows : List (List JSVal)) :
    ((ensureAIFieldsPopulated mode key classify rng headers rows).2.length = rows.length) ∧
    (∀ (i : Nat) (c : String), (c = "AI Issue Type" ∨ c = "AI Root Cause") →
      isEmptyCell (getFieldByName (ensureAIFieldsPopulated mode key classify rng headers rows).1
        (rows.getD i []) c) = false →
      getFieldByName (ensureAIFieldsPopulated mode key classify rng headers rows).1
          ((ensureAIFieldsPopulated mode key classify rng headers rows).2.getD i []) c =
        getFieldByName (ensureAIFieldsPopulated mode key classify rng headers rows).1
          (rows.getD i []) c) ∧
    ((∀ c ∈ requiredCols, c ∈ headers) →
     (∀ row ∈ rows, isEmptyCell (getFieldByName headers row "AI Issue Type") = false ∧
        isEmptyCell (getFieldByName headers row "AI Root Cause") = false) →
     ensureAIFieldsPopulated mode key classify rng headers rows = (headers, rows)) := by
  refine ⟨?_, ?_, ?_⟩
  · by_cases he : rows.isEmpty = true
    · have hrows := List.isEmpty_iff.mp he
      subst hrows
      rfl
    · simp only [ensureAIFieldsPopulated, if_neg he]
      exact fillRows_length mode key classify (ensureHeaders headers) rng rows 0
  · intro i c hcol h
    by_cases he : rows.isEmpty = true
    · have hrows := List.isEmpty_iff.mp he
      subst hrows
      simp [ensureAIFieldsPopulated]
    · simp only [ensureAIFieldsPopulated, if_neg he] at h ⊢
      exact fillRows_preserves_at mode key classify (ensureHeaders headers) rng rows 0 i c hcol h
  · intro hreq hpop
    by_cases he : rows.isEmpty = true
    · have hrows := List.isEmpty_iff.mp he
      subst hrows
      rfl
    · simp only [ensureAIFieldsPopulated, if_neg he]
      show (ensureHeaders headers,
        fillRows mode key classify (ensureHeaders headers) rng 0 rows) = (headers, rows)
      rw [ensureHeaders_id headers hreq]
      rw [fillRows_id mode key classify headers rng rows hpop 0]

/-- C3 witness: on a concrete fully-populated sheet the fill engine is the
identity. -/
theorem fill_never_overwrites_labels_witness :
    ensureAIFieldsPopulated "mock" none (fun _ _ => none) (fun _ => 0) requiredCols
      [[JSVal.vStr "A", JSVal.vNum 90, JSVal.vStr "B", JSVal.vNum 90]] =
    (requiredCols, [[JSVal.vStr "A", JSVal.vNum 90, JSVal.vStr "B", JSVal.vNum 90]]) :=
  (fill_never_overwrites_labels "mock" none (fun _ _ => none) (fun _ => 0) requiredCols
    [[JSVal.vStr "A", JSVal.vNum 90, JSVal.vStr "B", JSVal.vNum 90]]).2.2
    (by decide) (by decide)

/-- C3 (counterexample): a non-empty classification field CAN be
overwritten: in mock mode a row whose issue label is empty but whose
issue confidence holds the non-empty value 85 gets that confidence
overwritten with a fresh random value (55 under a random stream that is
constantly 0). -/
theorem fill_overwrites_nonempty_confidence_cx :
    ensureAIFieldsPopulated "mock" none (fun _ _ => none) (fun _ => 0) requiredCols
      [[JSVal.vStr "", JSVal.vNum 85, JSVal.vStr "B", JSVal.vNum 70]] =
    (requiredCols, [[JSVal.vStr "Update Requests", JSVal.vNum 55, JSVal.vStr "B", JSVal.vNum 70]]) ∧
    isEmptyCell (JSVal.vNum 85) = false ∧ (JSVal.vNum 55 ≠ JSVal.vNum 85) := by
  refine ⟨?_, by decide, by decide⟩
  have hconf : randConf 0 = 55 := by
    norm_num [randConf, jsRound, min_def, max_def]
  have hpick : randPick ISSUE_TYPES_DEMO 0 = JSVal.vStr "Update Requests" := by
    norm_num [randPick, ISSUE_TYPES_DEMO]
  simp +decide [ensureAIFieldsPopulated, ensureHeaders, requiredCols, fillRows, fillRow,
    idxOf, getCellI, setCellI, setAt, isEmptyCell, hpick, hconf]

/- =====================  C4  ===================== -/

/-- C4 (code evaluation at the failing input): a record set whose
`AI Issue Type` column is absent gets the column created, but the fill
engine leaves every cell of it unfilled: the in-memory value of the new
column is `undefined`, and `undefined === "" || undefined === null` is
false, so the row is not considered as needing fill.  The function's own
purpose statement ("Ensure AI columns exist and populate empty cells",
app_script.js line 73) is violated. -/
theorem absent_column_never_filled :
    ensureAIFieldsPopulated "mock" none (fun _ _ => none) (fun _ => 0)
      ["Created", "AI Root Cause", "AI Root Cause Confidence"]
      [[JSVal.vStr "x", JSVal.vStr "B", JSVal.vNum 90]] =
    (["Created", "AI Root Cause", "AI Root Cause Confidence",
      "AI Issue Type", "AI Issue Type Confidence"],
     [[JSVal.vStr "x", JSVal.vStr "B", JSVal.vNum 90]]) ∧
    getFieldByName
      ["Created", "AI Root Cause", "AI Root Cause Confidence",
       "AI Issue Type", "AI Issue Type Confidence"]
      [JSVal.vStr "x", JSVal.vStr "B", JSVal.vNum 90] "AI Issue Type" = JSVal.vUndefined := by
  constructor <;> decide

/- =====================  C7 lemmas  ===================== -/

theorem keys_updateEntry (es : List GroupAcc) (k : String) (c : ℚ) :
    (updateEntry es k c).map (fun e => e.1) =
      if k ∈ es.map (fun e => e.1) then es.map (fun e => e.1)
      else es.map (fun e => e.1) ++ [k] := by
  induction es with
  | nil => simp [updateEntry]
  | cons e rest ih =>
    simp only [updateEntry]
    by_cases hek : e.1 = k
    · simp [hek]
    · have hke : ¬(k = e.1) := fun hh => hek hh.symm
      simp only [if_neg hek, List.map_cons, ih, List.mem_cons]
      by_cases hk : k ∈ rest.map (fun e => e.1)
      · simp [hk, hke]
      · simp [hk, hke]

theorem updateEntry_not_mem (es : List GroupAcc) (k : String) (c : ℚ)
    (h : k ∉ es.map (fun e => e.1)) :
    updateEntry es k c = es ++ [(k, 1, c)] := by
  induction es with
  | nil => simp [updateEntry]
  | cons e rest ih =>
    simp only [List.map_cons, List.mem_cons, not_or] at h
    have hne : ¬(e.1 = k) := fun hh => h.1 hh.symm
    simp only [updateEntry, if_neg hne]
    rw [ih h.2]
    simp

theorem updateEntry_map_bump (k : String) (c : ℚ) (f : String → Nat) (g : String → ℚ) :
    ∀ es : List GroupAcc, k ∈ es.map (fun e => e.1) → (es.map (fun e => e.1)).Nodup →
    (updateEntry es k c).map (fun e => (e.1, e.2.1 + f e.1, e.2.2 + g e.1)) =
      es.map (fun e => (e.1, (e.2.1 + if e.1 = k then 1 else 0) + f e.1,
        (e.2.2 + if e.1 = k then c else 0) + g e.1)) := by
  intro es
  induction es with
  | nil => simp
  | cons e rest ih =>
    intro hmem hnd
    simp only [List.map_cons, List.nodup_cons] at hnd
    by_cases hek : e.1 = k
    · simp only [updateEntry, if_pos hek, List.map_cons, if_pos hek]
      congr 1
      apply List.map_congr_left
      intro a ha
      have hak : ¬(a.1 = k) := by
        intro hh
        exact hnd.1 (hek ▸ hh ▸ List.mem_map_of_mem (fun e => e.1) ha)
      simp [hak]
    · have hk : k ∈ rest.map (fun e => e.1) := by
        rcases List.mem_cons.mp hmem with h1 | h2
        · exact absurd h1.symm hek
        · exact h2
      simp only [updateEntry, if_neg hek, List.map_cons, ih hk hnd.2, if_neg hek]
      simp

theorem mem_firstDedup : ∀ (l : List String) (k : String), k ∈ firstDedup l → k ∈ l := by
  intro l
  induction l with
  | nil => intro k h; simp [firstDedup] at h
  | cons a t ih =>
    intro k h
    simp only [firstDedup, List.mem_cons] at h
    rcases h with rfl | h
    · simp
    · exact List.mem_cons_of_mem a (ih k (List.mem_of_mem_filter h))

theorem groupCount_cons (r : Record) (data : List Record) (kF k : String) :
    groupCount (r :: data) kF k = groupCount data kF k + (if keyOf kF r = k then 1 else 0) := by
  simp [groupCount, List.countP_cons]

theorem groupTotal_cons (r : Record) (data : List Record) (kF cF k : String) :
    groupTotal (r :: data) kF cF k =
      (if keyOf kF r = k then confVal cF r else 0) + groupTotal data kF cF k := by
  simp [groupTotal]

theorem accumGroups_eq (kF cF : String) :
    ∀ (data : List Record) (es : List GroupAcc), (es.map (fun e => e.1)).Nodup →
      accumGroups kF cF data es =
        es.map (fun e => (e.1, e.2.1 + groupCount data kF e.1, e.2.2 + groupTotal data kF cF e.1)) ++
        ((firstDedup (data.map (keyOf kF))).filter
          (fun k => decide (k ∉ es.map (fun e => e.1)))).map
          (fun k => (k, groupCount data kF k, groupTotal data kF cF k)) := by
  intro data
  induction data with
  | nil =>
    intro es hnd
    simp [accumGroups, groupCount, groupTotal, firstDedup]
  | cons r rest ih =>
    intro es hnd
    have hnd' : ((updateEntry es (keyOf kF r) (confVal cF r)).map (fun e => e.1)).Nodup := by
      rw [keys_updateEntry]
      split
      · exact hnd
      · rename_i hnotmem
        simp only [List.nodup_append, List.nodup_cons, List.not_mem_nil, not_false_iff,
          List.nodup_nil, and_true, true_and]
        refine ⟨hnd, ?_⟩
        intro a ha
        simp only [List.mem_singleton]
        intro hak
        exact hnotmem (hak ▸ ha)
    simp only [accumGroups]
    rw [ih _ hnd']
    by_cases hmem : keyOf kF r ∈ es.map (fun e => e.1)
    · rw [updateEntry_map_bump _ _ _ _ es hmem hnd]
      simp only [keys_updateEntry, hmem, if_true, List.map_cons, firstDedup]
      congr 1
      · apply List.map_congr_left
        intro a ha
        rw [groupCount_cons, groupTotal_cons]
        by_cases hak : a.1 = keyOf kF r
        · have hka : keyOf kF r = a.1 := hak.symm
          simp only [if_pos hak, if_pos hka, Prod.mk.injEq, true_and]
          exact ⟨by omega, by ring⟩
        · have hka : ¬(keyOf kF r = a.1) := fun hh => hak hh.symm
          simp only [if_neg hak, if_neg hka, Prod.mk.injEq, true_and]
          exact ⟨by omega, by ring⟩
      · rw [List.filter_cons]
        have hd0 : (decide (keyOf kF r ∉ es.map (fun e => e.1))) = false := by
          simp [hmem]
        simp only [hd0, Bool.false_eq_true, if_false, ite_false]
        rw [List.filter_filter]
        have hfc : (firstDedup (rest.map (keyOf kF))).filter
              (fun k => decide (k ∉ es.map (fun e => e.1)) && decide (k ≠ keyOf kF r)) =
            (firstDedup (rest.map (keyOf kF))).filter
              (fun k => decide (k ∉ es.map (fun e => e.1))) := by
          apply List.filter_congr
          intro k _
          by_cases hks : k ∈ es.map (fun e => e.1)
          · simp [hks]
          · have hne : k ≠ keyOf kF r := fun hh => hks (hh ▸ hmem)
            simp [hks, hne]
        rw [hfc]
        apply List.map_congr_left
        intro k hk
        have hkmem : k ∉ es.map (fun e => e.1) := by
          have := (List.mem_filter.mp hk).2
          simpa using this
        have hkne : ¬(keyOf kF r = k) := fun hh => hkmem (hh ▸ hmem)
        rw [groupCount_cons, groupTotal_cons]
        simp [hkne]
    · simp only [updateEntry_not_mem es (keyOf kF r) (confVal cF r) hmem,
        List.map_append, List.map_cons, List.map_nil, firstDedup]
      rw [List.append_assoc, List.singleton_append]
      rw [List.filter_cons]
      have hd0 : (decide (keyOf kF r ∉ es.map (fun e => e.1))) = true := by
        simp [hmem]
      simp only [hd0, if_true, ite_true, List.map_cons]
      congr 1
      · apply List.map_congr_left
        intro a ha
        have hka : ¬(keyOf kF r = a.1) := by
          intro hh
          exact hmem (hh ▸ List.mem_map_of_mem (fun e => e.1) ha)
        rw [groupCount_cons, groupTotal_cons]
        simp [hka]
      congr 1
      · rw [groupCount_cons, groupTotal_cons]
        simp only [Prod.mk.injEq, true_and]
        constructor
        · simp
          omega
        · simp
      · rw [List.filter_filter]
        have hfe : (firstDedup (rest.map (keyOf kF))).filter
              (fun k => decide (k ∉ es.map (fun e => e.1) ++ [keyOf kF r])) =
            (firstDedup (rest.map (keyOf kF))).filter
              (fun k => decide (k ∉ es.map (fun e => e.1)) && decide (k ≠ keyOf kF r)) := by
          apply List.filter_congr
          intro k _
          by_cases h1 : k = keyOf kF r
          · simp [h1]
          · by_cases h2 : k ∈ es.map (fun e => e.1) <;> simp [h1, h2]
        rw [hfe]
        apply List.map_congr_left
        intro k hk
        have hkne : ¬(keyOf kF r = k) := by
          have := List.of_mem_filter hk
          simp only [Bool.and_eq_true, decide_eq_true_eq] at this
          exact fun hh => this.2 hh.symm
        rw [groupCount_cons, groupTotal_cons]
        simp [hkne]

theorem jsObjKeyOrder_id (es : List GroupAcc)
    (h : ∀ e ∈ es, isArrayIndexStr e.1 = false) :
    jsObjKeyOrder es = es := by
  unfold jsObjKeyOrder
  have h1 : es.filter (fun e => isArrayIndexStr e.1) = [] := by
    rw [List.filter_eq_nil_iff]
    intro a ha
    simp [h a ha]
  have h2 : es.filter (fun e => !isArrayIndexStr e.1) = es := by
    rw [List.filter_eq_self]
    intro a ha
    simp [h a ha]
  rw [h1, h2]
  rfl

/- =====================  C7  ===================== -/

/-- C7 (amended): provided no grouped label's property-key string is a
canonical array index (true of every configured label list and of the
`"Unknown"` sentinel), the aggregator output equals the claim's
description: groups keyed with the `"Unknown"` sentinel for falsy labels,
counting every record (unparseable confidence contributing 0 to the sum),
mean = sum/count rounded to one decimal, stably ordered by count
descending with ties in first-discovery order, truncated to 5.  Labels
whose string form is an array index are instead enumerated first in
ascending numeric order by the grouping object, which can break the
discovery-order tie rule.  Unconditionally, the output never has more
than 5 groups. -/
theorem summarizeByKey_refines_spec (data : List Record) (kF cF : String) :
    ((∀ r ∈ data, isArrayIndexStr (keyOf kF r) = false) →
      summarizeByKey data kF cF = specSummarizeByKey data kF cF) ∧
    (summarizeByKey data kF cF).length ≤ 5 := by
  constructor
  · intro h
    simp only [summarizeByKey, specSummarizeByKey]
    have hacc := accumGroups_eq kF cF data [] (by simp)
    simp only [List.map_nil, List.not_mem_nil, not_false_iff, decide_True, List.filter_true,
      List.nil_append, List.append_nil] at hacc
    rw [hacc]
    rw [jsObjKeyOrder_id]
    · rw [List.map_map]
      rfl
    · intro e he
      rcases List.mem_map.mp he with ⟨k, hk, rfl⟩
      rcases List.mem_map.mp (mem_firstDedup _ _ hk) with ⟨r, hr, rfl⟩
      exact h r hr
  · unfold summarizeByKey
    exact List.length_take_le 5 _

/-- C7 witness: on a record set with no array-index labels the aggregator
matches the specification description. -/
theorem summarizeByKey_refines_spec_witness :
    summarizeByKey [[("L", JSVal.vStr "A"), ("C", JSVal.vNum 80)]] "L" "C" =
      specSummarizeByKey [[("L", JSVal.vStr "A"), ("C", JSVal.vNum 80)]] "L" "C" :=
  (summarizeByKey_refines_spec [[("L", JSVal.vStr "A"), ("C", JSVal.vNum 80)]] "L" "C").1
    (by decide)

/-- C7 (counterexample): ties are NOT always broken by first-discovery
order: with the label `"A"` discovered first and the numeric label `7`
second, both groups of size 2, the grouping object enumerates the
array-index key `"7"` first, so the code returns `"7"` before `"A"` while
the claim's description returns `"A"` before `"7"`. -/
theorem summarizeByKey_tie_order_cx :
    summarizeByKey
      [[("L", JSVal.vStr "A"), ("C", JSVal.vNum 80)],
       [("L", JSVal.vNum 7), ("C", JSVal.vNum 80)],
       [("L", JSVal.vStr "A"), ("C", JSVal.vNum 80)],
       [("L", JSVal.vNum 7), ("C", JSVal.vNum 80)]] "L" "C" =
      [GroupSummary.mk "7" 2 80, GroupSummary.mk "A" 2 80] ∧
    specSummarizeByKey
      [[("L", JSVal.vStr "A"), ("C", JSVal.vNum 80)],
       [("L", JSVal.vNum 7), ("C", JSVal.vNum 80)],
       [("L", JSVal.vStr "A"), ("C", JSVal.vNum 80)],
       [("L", JSVal.vNum 7), ("C", JSVal.vNum 80)]] "L" "C" =
      [GroupSummary.mk "A" 2 80, GroupSummary.mk "7" 2 80] := by
  have hconf : confVal "C" [("L", JSVal.vStr "A"), ("C", JSVal.vNum 80)] = 80 := by
    simp +decide [confVal, Record.get, List.lookup, safeParseConfidence, jsScale]
  have hconf7 : confVal "C" [("L", JSVal.vNum 7), ("C", JSVal.vNum 80)] = 80 := by
    simp +decide [confVal, Record.get, List.lookup, safeParseConfidence, jsScale]
  have hkA : keyOf "L" [("L", JSVal.vStr "A"), ("C", JSVal.vNum 80)] = "A" := by decide
  have hk7 : keyOf "L" [("L", JSVal.vNum 7), ("C", JSVal.vNum 80)] = "7" := by decide
  have hidx7 : isArrayIndexStr "7" = true := by decide
  have hidxA : isArrayIndexStr "A" = false := by decide
  constructor
  · simp +decide [summarizeByKey, accumGroups, updateEntry, hkA, hk7,
      hconf, hconf7, jsObjKeyOrder, hidx7, hidxA,
      sortAscByKey, insertAscByKey, keyNumOf, sortByCountDesc, insertDesc,
      GroupSummary.mk.injEq]
    norm_num [toFixed1, jsRound]
  · simp +decide [specSummarizeByKey, firstDedup, hkA, hk7, groupCount, groupTotal,
      hconf, hconf7, sortByCountDesc, insertDesc, GroupSummary.mk.injEq]
    norm_num [toFixed1, jsRound]
